import Mathlib

/-
Verification of the fancylock lock-session engine against its specification.

The definitions below are a shallow embedding of the Go sources:
  - SecurePassword            (internal/lock.go)
  - LockoutManager            (lockout manager file, part_005)
  - X11Locker.authenticate    (internal/x11.go)
  - WaylandLocker.authenticate (wayland session-lock file, part_006,
    the LockoutManager-based implementation)
  - MediaPlayer               (internal/media.go)

Machine integers (Go int, time.Duration, time.Time) are modelled as Nat/Int;
durations are in seconds (all constants in the source are whole seconds, and
scaling from nanoseconds to seconds preserves every comparison the code makes).
Calls into external collaborators (PAM, the filesystem walk, process spawning)
are parameters of the corresponding functions.
-/

namespace Fancylock

/-! ## SecureCredentialBuffer (SecurePassword, internal/lock.go)

The Go value is a slice p.data over a backing array.  We model the backing
array explicitly: store is the content of the backing array and len the
logical length (the length of the slice view p.data).  NewSecurePassword
uses make([]byte, 0, 64), a zero-filled backing array of capacity 64; when
append has to grow the array, Go allocates fresh zero-filled memory, which we
model as exactly the cells written. -/

structure SecurePassword where
  store : List Nat
  len : Nat
deriving Repr, DecidableEq

/-- Models NewSecurePassword: make([]byte, 0, 64). -/
def NewSecurePassword : SecurePassword :=
  { store := List.replicate 64 0, len := 0 }

/-- Models SecurePassword.Append: p.data = append(p.data, char).  If the
backing array still has room the byte is written in place, otherwise the
array grows. -/
def SecurePassword.Append (p : SecurePassword) (c : Nat) : SecurePassword :=
  if p.len < p.store.length then
    { store := p.store.set p.len c, len := p.len + 1 }
  else
    { store := p.store ++ [c], len := p.len + 1 }

/-- Models SecurePassword.RemoveLast: if len(p.data) > 0, zero the last byte
of the view (p.data[len(p.data)-1] = 0) and then shrink the view by one. -/
def SecurePassword.RemoveLast (p : SecurePassword) : SecurePassword :=
  if 0 < p.len then
    { store := p.store.set (p.len - 1) 0, len := p.len - 1 }
  else p

/-- Models SecurePassword.Clear: zero every byte of the view
(for i := range p.data, p.data[i] = 0) and reset the view to length 0. -/
def SecurePassword.Clear (p : SecurePassword) : SecurePassword :=
  { store := (p.store.take p.len).map (fun _ => 0) ++ p.store.drop p.len,
    len := 0 }

/-- Models SecurePassword.Length (Go returns int; we mirror it as Int). -/
def SecurePassword.Length (p : SecurePassword) : Int :=
  (p.len : Int)

/-- Models SecurePassword.String: the bytes of the current view p.data. -/
def SecurePassword.StringBytes (p : SecurePassword) : List Nat :=
  p.store.take p.len

/-- One key-event mutation of the credential buffer. -/
inductive PwOp where
  | append (c : Nat)
  | removeLast
  | clear
deriving Repr, DecidableEq

def SecurePassword.applyOp (p : SecurePassword) (op : PwOp) : SecurePassword :=
  match op with
  | .append c => p.Append c
  | .removeLast => p.RemoveLast
  | .clear => p.Clear

def SecurePassword.run (p : SecurePassword) (ops : List PwOp) : SecurePassword :=
  ops.foldl SecurePassword.applyOp p

/-- Well-formedness plus the zeroing invariant of the backing storage: the
view fits in the backing array, and every backing byte beyond the logical
length is zero. -/
def SecurePassword.Inv (p : SecurePassword) : Prop :=
  p.len ≤ p.store.length ∧ ∀ b ∈ p.store.drop p.len, b = 0

theorem drop_set_of_lt (l : List Nat) (i j : Nat) (a : Nat) (h : i < j) :
    (l.set i a).drop j = l.drop j := by
  induction l generalizing i j with
  | nil => simp
  | cons x xs ih =>
    cases i with
    | zero =>
      cases j with
      | zero => omega
      | succ j => simp
    | succ i =>
      cases j with
      | zero => omega
      | succ j =>
        simp only [List.set, List.drop]
        exact ih i j (by omega)

theorem drop_set_self (l : List Nat) (i : Nat) (a : Nat) (h : i < l.length) :
    (l.set i a).drop i = a :: l.drop (i + 1) := by
  induction l generalizing i with
  | nil => simp at h
  | cons x xs ih =>
    cases i with
    | zero => simp
    | succ i =>
      simp only [List.set, List.drop]
      exact ih i (by simpa using h)

theorem inv_new : NewSecurePassword.Inv := by
  constructor
  · simp [NewSecurePassword]
  · intro b hb
    simp only [NewSecurePassword, List.drop_replicate] at hb
    exact List.eq_of_mem_replicate hb

theorem inv_append (p : SecurePassword) (c : Nat) (h : p.Inv) : (p.Append c).Inv := by
  obtain ⟨hle, hz⟩ := h
  unfold SecurePassword.Append
  by_cases hcap : p.len < p.store.length
  · simp only [hcap, if_true]
    constructor
    · simpa using hcap
    · intro b hb
      rw [drop_set_of_lt p.store p.len (p.len + 1) c (by omega)] at hb
      exact hz b (List.mem_of_mem_drop (by simpa [List.drop_drop] using hb))
  · simp only [hcap, if_false]
    constructor
    · simp; omega
    · intro b hb
      have hlen : p.len = p.store.length := by omega
      rw [List.drop_eq_nil_of_le (by simp; omega)] at hb
      simp at hb

theorem inv_removeLast (p : SecurePassword) (h : p.Inv) : p.RemoveLast.Inv := by
  obtain ⟨hle, hz⟩ := h
  unfold SecurePassword.RemoveLast
  by_cases hpos : 0 < p.len
  · simp only [hpos, if_true]
    constructor
    · simp; omega
    · intro b hb
      rw [drop_set_self p.store (p.len - 1) 0 (by omega)] at hb
      rcases List.mem_cons.mp hb with hb | hb
      · exact hb
      · have : p.len - 1 + 1 = p.len := by omega
        rw [this] at hb
        exact hz b hb
  · simp only [hpos, if_false]
    exact ⟨hle, hz⟩

theorem inv_clear (p : SecurePassword) (h : p.Inv) : p.Clear.Inv := by
  obtain ⟨hle, hz⟩ := h
  constructor
  · simp [SecurePassword.Clear]
  · intro b hb
    simp only [SecurePassword.Clear, List.drop_zero] at hb
    rcases List.mem_append.mp hb with hb | hb
    · obtain ⟨a, _, hev⟩ := List.mem_map.mp hb
      exact hev.symm
    · exact hz b hb

theorem inv_applyOp (p : SecurePassword) (op : PwOp) (h : p.Inv) : (p.applyOp op).Inv := by
  cases op with
  | append c => exact inv_append p c h
  | removeLast => exact inv_removeLast p h
  | clear => exact inv_clear p h

theorem inv_run (p : SecurePassword) (ops : List PwOp) (h : p.Inv) : (p.run ops).Inv := by
  induction ops generalizing p with
  | nil => exact h
  | cons op ops ih => exact ih (p.applyOp op) (inv_applyOp p op h)

/-- C2: For every sequence of Append/RemoveLast/Clear operations on a
SecurePassword created by NewSecurePassword, every backing-storage byte
beyond the current logical length is zero; in particular every byte position
that was logically removed holds zero until a later Append overwrites it. -/
theorem c2_no_residual_bytes_beyond_length (ops : List PwOp) :
    ∀ b ∈ (NewSecurePassword.run ops).store.drop (NewSecurePassword.run ops).len, b = 0 :=
  (inv_run NewSecurePassword ops inv_new).2

/-- Witness for C2 at a concrete input: after appending byte 65 and removing
it again, backing-store position 0 (which held the 65) is a byte beyond the
logical length and reads back as zero. -/
theorem c2_witness :
    (NewSecurePassword.run [PwOp.append 65, PwOp.removeLast]).store.getD 0 7 ∈
      (NewSecurePassword.run [PwOp.append 65, PwOp.removeLast]).store.drop
        (NewSecurePassword.run [PwOp.append 65, PwOp.removeLast]).len ∧
    (NewSecurePassword.run [PwOp.append 65, PwOp.removeLast]).store.getD 0 7 = 0 :=
  ⟨by decide, c2_no_residual_bytes_beyond_length [PwOp.append 65, PwOp.removeLast] _ (by decide)⟩

/-- C10: SecurePassword.RemoveLast on an empty buffer is a no-op (the source
guard len(p.data) > 0 makes it total, so it neither panics nor changes the
buffer), and Length never returns a negative value after any sequence of
operations. -/
theorem c10_removeLast_empty_noop :
    (∀ p : SecurePassword, p.len = 0 → p.RemoveLast = p) ∧
    (∀ ops : List PwOp, 0 ≤ (NewSecurePassword.run ops).Length) := by
  constructor
  · intro p hp
    simp [SecurePassword.RemoveLast, hp]
  · intro ops
    simp [SecurePassword.Length]

/-- Witness for C10 at a concrete input: a freshly created buffer has length 0
and RemoveLast leaves it unchanged. -/
theorem c10_witness :
    NewSecurePassword.RemoveLast = NewSecurePassword :=
  c10_removeLast_empty_noop.1 NewSecurePassword rfl

/-! ## LockoutPolicy (LockoutManager, part_005)

Time instants are Int seconds; durations are Int seconds (the source uses
time.Duration nanoseconds, but every constant is a whole number of seconds
and every comparison is preserved by the scaling).  config.DebugExit is the
only configuration field the manager reads. -/

structure LockoutManager where
  failedAttempts : Nat
  lockoutUntil : Int
  lockoutActive : Bool
  lastFailureTime : Int
  timerRunning : Bool
  debugExit : Bool
deriving Repr, DecidableEq

/-- Models NewLockoutManager: zero counters, lastFailureTime set 24h in the
past to avoid an initial penalty. -/
def NewLockoutManager (debugExit : Bool) (now : Int) : LockoutManager :=
  { failedAttempts := 0, lockoutUntil := 0, lockoutActive := false,
    lastFailureTime := now - 86400, timerRunning := false, debugExit := debugExit }

/-- The triple returned by HandleFailedAttempt:
(lockoutActive, lockoutDuration, remainingAttempts). -/
structure FailOutcome where
  activated : Bool
  duration : Int
  remaining : Nat
deriving Repr, DecidableEq, Inhabited

/-- Models LockoutManager.HandleFailedAttempt: increment failedAttempts and
record the failure time; at 3 or more failures compute the lockout duration
(5s in debug mode; 30s when no lockout is currently active; otherwise
30s x (failedAttempts/3) capped at 600s), set lockoutUntil and lockoutActive,
and reset failedAttempts to 0. -/
def LockoutManager.HandleFailedAttempt (lm : LockoutManager) (now : Int) :
    LockoutManager × FailOutcome :=
  let lm1 := { lm with failedAttempts := lm.failedAttempts + 1, lastFailureTime := now }
  if 3 ≤ lm1.failedAttempts then
    let dur : Int :=
      if lm1.debugExit then 5
      else if lm1.lockoutActive then
        let d := 30 * ((lm1.failedAttempts / 3 : Nat) : Int)
        if 600 < d then 600 else d
      else 30
    ({ lm1 with lockoutUntil := now + dur, lockoutActive := true, failedAttempts := 0 },
     { activated := true, duration := dur, remaining := 0 })
  else
    (lm1, { activated := false, duration := 0, remaining := 3 - lm1.failedAttempts })

/-- Models LockoutManager.IsLockedOut: true while lockoutActive and now is
before lockoutUntil; if lockoutActive but now is after lockoutUntil, clear
the flag; return false. -/
def LockoutManager.IsLockedOut (lm : LockoutManager) (now : Int) : LockoutManager × Bool :=
  if lm.lockoutActive ∧ now < lm.lockoutUntil then (lm, true)
  else if lm.lockoutActive ∧ lm.lockoutUntil < now then
    ({ lm with lockoutActive := false }, false)
  else (lm, false)

/-- Models LockoutManager.GetRemainingTime: 0 when no lockout is active;
otherwise lockoutUntil - now, clearing the flag if that is negative. -/
def LockoutManager.GetRemainingTime (lm : LockoutManager) (now : Int) : LockoutManager × Int :=
  if lm.lockoutActive then
    let remaining := lm.lockoutUntil - now
    if remaining < 0 then ({ lm with lockoutActive := false }, 0)
    else (lm, remaining)
  else (lm, 0)

/-- Models LockoutManager.ResetLockout (called on successful authentication). -/
def LockoutManager.ResetLockout (lm : LockoutManager) : LockoutManager :=
  { lm with failedAttempts := 0, lockoutActive := false, timerRunning := false }

/-- The per-call outcomes of feeding a sequence of failures (at the given
times) to HandleFailedAttempt. -/
def runOutcomes (ts : List Int) (lm : LockoutManager) : List FailOutcome :=
  match ts with
  | [] => []
  | t :: rest =>
    let r := lm.HandleFailedAttempt t
    r.2 :: runOutcomes rest r.1

theorem hfa_failedAttempts (lm : LockoutManager) (now : Int) (h : lm.failedAttempts ≤ 2) :
    (lm.HandleFailedAttempt now).1.failedAttempts = (lm.failedAttempts + 1) % 3 := by
  unfold LockoutManager.HandleFailedAttempt
  by_cases h3 : 3 ≤ lm.failedAttempts + 1
  · simp only [h3, if_true]
    omega
  · simp only [h3, if_false]
    omega

theorem outcome_spec (ts : List Int) (lm : LockoutManager) (i : Nat)
    (hfc : lm.failedAttempts ≤ 2) (hi : i < ts.length) :
    (((runOutcomes ts lm).getD i ⟨false, 0, 0⟩).activated = true ↔
        (lm.failedAttempts + i + 1) % 3 = 0) ∧
    ((lm.failedAttempts + i + 1) % 3 ≠ 0 →
        ((runOutcomes ts lm).getD i ⟨false, 0, 0⟩).activated = false ∧
        ((runOutcomes ts lm).getD i ⟨false, 0, 0⟩).remaining =
          3 - ((lm.failedAttempts + i + 1) % 3)) ∧
    (((runOutcomes ts lm).getD i ⟨false, 0, 0⟩).activated = true →
        ((runOutcomes ts lm).getD i ⟨false, 0, 0⟩).remaining = 0) := by
  induction ts generalizing lm i with
  | nil => simp at hi
  | cons t rest ih =>
    cases i with
    | zero =>
      simp only [runOutcomes, List.getD_cons_zero]
      obtain ⟨fc, lu, la, lf, tr2, dbg⟩ := lm
      simp only [LockoutManager.failedAttempts] at hfc ⊢
      interval_cases fc <;> simp [LockoutManager.HandleFailedAttempt]
    | succ i =>
      simp only [runOutcomes, List.getD_cons_succ]
      have hfc1 : (lm.HandleFailedAttempt t).1.failedAttempts ≤ 2 := by
        rw [hfa_failedAttempts lm t hfc]; omega
      have hlen : i < rest.length := by simpa using hi
      have h := ih (lm.HandleFailedAttempt t).1 i hfc1 hlen
      rw [hfa_failedAttempts lm t hfc] at h
      have hmod : ((lm.failedAttempts + 1) % 3 + i + 1) % 3 =
          (lm.failedAttempts + (i + 1) + 1) % 3 := by omega
      rw [hmod] at h
      exact h

/-- C4: for every sequence of authentication failures fed to the lockout
policy from a reset state, a lockout is activated exactly on every 3rd
consecutive failure since the last reset or lockout and never earlier; a
non-activating failure returns not-activated with remaining attempts equal
to 3 minus the current failure count, and an activation returns remaining 0. -/
theorem c4_lockout_on_third_failure (ts : List Int) (lm : LockoutManager)
    (h0 : lm.failedAttempts = 0) (i : Nat) (hi : i < ts.length) :
    (((runOutcomes ts lm).getD i ⟨false, 0, 0⟩).activated = true ↔ (i + 1) % 3 = 0) ∧
    ((i + 1) % 3 ≠ 0 →
        ((runOutcomes ts lm).getD i ⟨false, 0, 0⟩).activated = false ∧
        ((runOutcomes ts lm).getD i ⟨false, 0, 0⟩).remaining = 3 - ((i + 1) % 3)) ∧
    (((runOutcomes ts lm).getD i ⟨false, 0, 0⟩).activated = true →
        ((runOutcomes ts lm).getD i ⟨false, 0, 0⟩).remaining = 0) := by
  have h := outcome_spec ts lm i (by omega) hi
  rw [h0] at h
  simpa using h

/-- Witness for C4: three failures from a fresh manager; the first two do not
activate and report 2 and 1 remaining attempts, the third activates with 0. -/
theorem c4_witness :
    ((runOutcomes [10, 20, 30] (NewLockoutManager false 0)).getD 0 ⟨false, 0, 0⟩).remaining = 2 ∧
    ((runOutcomes [10, 20, 30] (NewLockoutManager false 0)).getD 1 ⟨false, 0, 0⟩).remaining = 1 ∧
    ((runOutcomes [10, 20, 30] (NewLockoutManager false 0)).getD 2 ⟨false, 0, 0⟩).activated = true := by
  refine ⟨?_, ?_, ?_⟩
  · exact ((c4_lockout_on_third_failure [10, 20, 30] (NewLockoutManager false 0) rfl 0
      (by decide)).2.1 (by decide)).2
  · exact ((c4_lockout_on_third_failure [10, 20, 30] (NewLockoutManager false 0) rfl 1
      (by decide)).2.1 (by decide)).2
  · exact (c4_lockout_on_third_failure [10, 20, 30] (NewLockoutManager false 0) rfl 2
      (by decide)).1.mpr (by decide)

theorem hfa_debugExit (lm : LockoutManager) (now : Int) :
    (lm.HandleFailedAttempt now).1.debugExit = lm.debugExit := by
  unfold LockoutManager.HandleFailedAttempt
  by_cases h3 : 3 ≤ lm.failedAttempts + 1 <;> simp [h3]

theorem hfa_duration_spec (lm : LockoutManager) (now : Int)
    (hdbg : lm.debugExit = false) (hfc : lm.failedAttempts ≤ 2)
    (hact : ((lm.HandleFailedAttempt now).2).activated = true) :
    (lm.lockoutActive = false → ((lm.HandleFailedAttempt now).2).duration = 30) ∧
    (lm.lockoutActive = true →
      ((lm.HandleFailedAttempt now).2).duration =
        min (30 * (((lm.failedAttempts + 1) / 3 : Nat) : Int)) 600) ∧
    ((lm.HandleFailedAttempt now).2).duration = 30 ∧
    (lm.HandleFailedAttempt now).1.lockoutUntil =
      now + ((lm.HandleFailedAttempt now).2).duration ∧
    (lm.HandleFailedAttempt now).1.lockoutActive = true ∧
    (lm.HandleFailedAttempt now).1.failedAttempts = 0 ∧
    ((lm.HandleFailedAttempt now).2).duration ≤ 600 := by
  obtain ⟨fc, lu, la, lf, tr2, dbg⟩ := lm
  simp only [LockoutManager.failedAttempts, LockoutManager.debugExit,
    LockoutManager.lockoutActive] at hfc hdbg hact ⊢
  subst hdbg
  interval_cases fc <;> cases la <;>
    simp_all [LockoutManager.HandleFailedAttempt]

/-- Durations of the lockouts that a failure sequence activates. -/
def durationsOf (ts : List Int) (lm : LockoutManager) : List Int :=
  ((runOutcomes ts lm).filter (fun o => o.activated)).map (fun o => o.duration)

theorem outcomes_duration_30 (ts : List Int) (lm : LockoutManager)
    (hdbg : lm.debugExit = false) (hfc : lm.failedAttempts ≤ 2) :
    ∀ o ∈ runOutcomes ts lm, o.activated = true → o.duration = 30 := by
  induction ts generalizing lm with
  | nil => simp [runOutcomes]
  | cons t rest ih =>
    intro o ho hact
    rcases List.mem_cons.mp ho with rfl | ho
    · exact (hfa_duration_spec lm t hdbg hfc hact).2.2.1
    · refine ih (lm.HandleFailedAttempt t).1 ?_ ?_ o ho hact
      · rw [hfa_debugExit]; exact hdbg
      · rw [hfa_failedAttempts lm t hfc]; omega

theorem chain_le_of_all_30 (l : List Int) (h : ∀ d ∈ l, d = 30) :
    l.Chain' (· ≤ ·) := by
  induction l with
  | nil => simp
  | cons a rest ih =>
    cases rest with
    | nil => simp
    | cons b rest2 =>
      rw [List.chain'_cons]
      refine ⟨?_, ?_⟩
      · have ha := h a (by simp)
        have hb := h b (by simp)
        omega
      · exact ih (fun d hd => h d (List.mem_cons_of_mem a hd))

/-- C5: a 3rd failure (non-debug configuration) activates a lockout whose
duration is 30s when no lockout is active (in particular for the first-ever
lockout) and otherwise 30s x (failed_count/3) capped at 600s; it sets
lockout_until = now + duration, lockout_active = true and failed_count = 0.
Over any failure sequence from a reset state the emitted lockout durations
are monotonically non-decreasing and never exceed the 600s cap. -/
theorem c5_lockout_duration :
    (∀ (now : Int) (lm : LockoutManager), lm.debugExit = false →
      lm.failedAttempts ≤ 2 → ((lm.HandleFailedAttempt now).2).activated = true →
      ((lm.lockoutActive = false → ((lm.HandleFailedAttempt now).2).duration = 30) ∧
       (lm.lockoutActive = true →
         ((lm.HandleFailedAttempt now).2).duration =
           min (30 * (((lm.failedAttempts + 1) / 3 : Nat) : Int)) 600) ∧
       (lm.HandleFailedAttempt now).1.lockoutUntil =
         now + ((lm.HandleFailedAttempt now).2).duration ∧
       (lm.HandleFailedAttempt now).1.lockoutActive = true ∧
       (lm.HandleFailedAttempt now).1.failedAttempts = 0 ∧
       ((lm.HandleFailedAttempt now).2).duration ≤ 600)) ∧
    (∀ (ts : List Int) (lm : LockoutManager), lm.debugExit = false →
      lm.failedAttempts = 0 →
      List.Chain' (· ≤ ·) (durationsOf ts lm) ∧ ∀ d ∈ durationsOf ts lm, d ≤ 600) := by
  constructor
  · intro now lm hdbg hfc hact
    have h := hfa_duration_spec lm now hdbg hfc hact
    exact ⟨h.1, h.2.1, h.2.2.2.1, h.2.2.2.2.1, h.2.2.2.2.2.1, h.2.2.2.2.2.2⟩
  · intro ts lm hdbg h0
    have hall : ∀ d ∈ durationsOf ts lm, d = 30 := by
      intro d hd
      obtain ⟨o, hom, hdo⟩ := List.mem_map.mp hd
      have hoa := List.of_mem_filter hom
      have hmem := List.mem_of_mem_filter hom
      have := outcomes_duration_30 ts lm hdbg (by omega) o hmem (by simpa using hoa)
      omega
    refine ⟨chain_le_of_all_30 _ hall, fun d hd => ?_⟩
    have := hall d hd
    omega

/-- A reset-state manager that has just absorbed two failures (used to
instantiate the C5 theorem at a concrete activation). -/
def lmTwoFails : LockoutManager :=
  (((NewLockoutManager false 0).HandleFailedAttempt 1).1.HandleFailedAttempt 2).1

/-- Witness for C5: the 3rd failure from a fresh manager locks out for 30s
until now + 30, and a run of 7 failures emits a non-decreasing, capped
duration sequence. -/
theorem c5_witness :
    ((lmTwoFails.HandleFailedAttempt 5).2).duration = 30 ∧
    (lmTwoFails.HandleFailedAttempt 5).1.lockoutUntil = 5 + 30 ∧
    List.Chain' (· ≤ ·) (durationsOf [1, 2, 3, 4, 5, 6, 7] (NewLockoutManager false 0)) := by
  have h1 := (c5_lockout_duration.1 5 lmTwoFails (by decide) (by decide) (by decide))
  have h2 := (c5_lockout_duration.2 [1, 2, 3, 4, 5, 6, 7] (NewLockoutManager false 0)
    (by decide) (by decide))
  refine ⟨?_, ?_, h2.1⟩
  · have := h1.1 (by decide)
    omega
  · have hd := h1.1 (by decide)
    have := h1.2.2.1
    omega

/-- A manager three failures past reset: lockout active until instant 5. -/
def lmAtBoundary : LockoutManager :=
  ((((NewLockoutManager false 0).HandleFailedAttempt (-25)).1.HandleFailedAttempt
    (-25)).1.HandleFailedAttempt (-25)).1

/-- Counterexample for C6: at now exactly equal to lockout_until (here 5),
IsLockedOut returns false but does NOT transition lockout_active to false
(the source clears the flag only when now is strictly after lockout_until),
contradicting the claim that once now >= lockout_until the next observation
transitions lockout_active to false. -/
theorem c6_counterexample :
    lmAtBoundary.lockoutActive = true ∧ lmAtBoundary.lockoutUntil = 5 ∧
    (lmAtBoundary.IsLockedOut 5).2 = false ∧
    (lmAtBoundary.IsLockedOut 5).1.lockoutActive = true := by decide

/-- C6 (amended): after a lockout is activated, IsLockedOut(now) returns true
strictly while now < lockout_until and false at and after lockout_until; the
flag lockout_active transitions to false on an observation with now strictly
greater than lockout_until, while an observation at exactly now =
lockout_until returns false but leaves the state (and the flag) unchanged. -/
theorem isLockedOut_spec (lm : LockoutManager) (now : Int) :
    ((lm.IsLockedOut now).2 = true ↔ lm.lockoutActive = true ∧ now < lm.lockoutUntil) ∧
    ((lm.IsLockedOut now).1.lockoutActive = true ↔
      lm.lockoutActive = true ∧ ¬ lm.lockoutUntil < now) ∧
    (¬(lm.lockoutActive = true ∧ lm.lockoutUntil < now) → (lm.IsLockedOut now).1 = lm) := by
  unfold LockoutManager.IsLockedOut
  split_ifs with h1 h2 <;> simp_all
  omega

theorem c6_is_locked_out_amended (lm : LockoutManager) (now : Int)
    (h : lm.lockoutActive = true) :
    ((lm.IsLockedOut now).2 = true ↔ now < lm.lockoutUntil) ∧
    (lm.lockoutUntil ≤ now → (lm.IsLockedOut now).2 = false) ∧
    (lm.lockoutUntil < now → (lm.IsLockedOut now).1.lockoutActive = false) ∧
    (now = lm.lockoutUntil → (lm.IsLockedOut now).1 = lm) := by
  obtain ⟨hsnd, hfst, hpres⟩ := isLockedOut_spec lm now
  refine ⟨?_, ?_, ?_, ?_⟩
  · rw [hsnd]
    exact ⟨fun hx => hx.2, fun hx => ⟨h, hx⟩⟩
  · intro hle
    cases hb : (lm.IsLockedOut now).2
    · rfl
    · have := (hsnd.mp hb).2
      omega
  · intro hlt
    cases hb : (lm.IsLockedOut now).1.lockoutActive
    · rfl
    · exact absurd hlt (hfst.mp hb).2
  · intro heq
    refine hpres ?_
    intro hx
    omega

/-- Witness for C6 (amended) at a concrete input: observing the boundary
manager at now = 10 > 5 = lockout_until clears lockout_active. -/
theorem c6_witness :
    (lmAtBoundary.IsLockedOut 10).1.lockoutActive = false :=
  (c6_is_locked_out_amended lmAtBoundary 10 (by decide)).2.2.1 (by decide)

/-! ## authenticate (X11Locker, internal/x11.go; WaylandLocker, part_006)

The external PAM authenticator is a parameter (auth).  The trace records the
externally observable actions of one authenticate() call: whether the
authenticator was invoked, whether the shake (denied feedback) animation was
started, and whether a lockout countdown/message render was started.  Fields
of the lockers that are pure rendering state (dot windows, surfaces) are not
modelled. -/

structure AuthTrace where
  authCalled : Bool
  shake : Bool
  countdown : Bool
deriving Repr, DecidableEq

structure X11Locker where
  passwordBuf : String
  isLocked : Bool
  lockoutManager : LockoutManager
deriving Repr, DecidableEq

/-- Models X11Locker.authenticate: if locked out, read the remaining time,
clear passwordBuf and shake; otherwise call PAM on passwordBuf; on success
set isLocked false and reset the lockout manager (passwordBuf is NOT
assigned in this branch); on failure feed the lockout manager, clear
passwordBuf, draw the lockout message if a lockout was activated, and shake. -/
def X11Locker.authenticate (auth : String → Bool) (now : Int) (l : X11Locker) :
    X11Locker × AuthTrace :=
  let r0 := l.lockoutManager.IsLockedOut now
  if r0.2 then
    let r1 := r0.1.GetRemainingTime now
    ({ l with lockoutManager := r1.1, passwordBuf := "" },
     { authCalled := false, shake := true, countdown := false })
  else if auth l.passwordBuf then
    ({ l with isLocked := false, lockoutManager := r0.1.ResetLockout },
     { authCalled := true, shake := false, countdown := false })
  else
    let r2 := r0.1.HandleFailedAttempt now
    ({ l with lockoutManager := r2.1, passwordBuf := "" },
     { authCalled := true, shake := true, countdown := r2.2.activated })

structure WaylandLocker where
  securePassword : SecurePassword
  lockoutManager : LockoutManager
  countdownActive : Bool
deriving Repr, DecidableEq

/-- Models WaylandLocker.authenticate (the LockoutManager-based
implementation at part_006 line 1753): if locked out, read the remaining
time, clear the secure password and return (no feedback); otherwise call PAM
on the buffer contents; on success reset the lockout manager; on failure
feed the lockout manager, shake, and start the countdown if a lockout was
activated; in both non-lockout branches the secure password is cleared at
the end of the call. -/
def WaylandLocker.authenticate (auth : List Nat → Bool) (now : Int) (l : WaylandLocker) :
    WaylandLocker × AuthTrace :=
  let r0 := l.lockoutManager.IsLockedOut now
  if r0.2 then
    let r1 := r0.1.GetRemainingTime now
    ({ l with lockoutManager := r1.1, securePassword := l.securePassword.Clear },
     { authCalled := false, shake := false, countdown := false })
  else if auth l.securePassword.StringBytes then
    ({ l with
        lockoutManager := r0.1.ResetLockout,
        securePassword := l.securePassword.Clear },
     { authCalled := true, shake := false, countdown := false })
  else
    let r2 := r0.1.HandleFailedAttempt now
    ({ l with
        lockoutManager := r2.1,
        securePassword := l.securePassword.Clear,
        countdownActive := if r2.2.activated then true else l.countdownActive },
     { authCalled := true, shake := true, countdown := r2.2.activated })

/-- An X11 session with a non-empty credential and no lockout, whose
authenticator accepts: the failing input for C1. -/
def x11SuccessInput : X11Locker :=
  { passwordBuf := "hunter2", isLocked := true,
    lockoutManager := NewLockoutManager false 0 }

/-- C1 (code bug): a successful X11 authenticate() call invokes the
authenticator, unlocks the session, resets the failure counters, but leaves
the credential buffer holding the submitted password: only the failure and
lockout branches of X11Locker.authenticate assign passwordBuf = "".  (The
Wayland implementation clears its buffer on every path.) -/
theorem c1_x11_success_retains_credential :
    (x11SuccessInput.authenticate (fun _ => true) 0).2.authCalled = true ∧
    (x11SuccessInput.authenticate (fun _ => true) 0).1.isLocked = false ∧
    (x11SuccessInput.authenticate (fun _ => true) 0).1.lockoutManager.failedAttempts = 0 ∧
    (x11SuccessInput.authenticate (fun _ => true) 0).1.passwordBuf = "hunter2" := by
  refine ⟨rfl, rfl, rfl, rfl⟩

/-- A lockout manager whose lockout is active until instant 100. -/
def lmActiveAt100 : LockoutManager :=
  ((((NewLockoutManager false 0).HandleFailedAttempt 70).1.HandleFailedAttempt
    70).1.HandleFailedAttempt 70).1

/-- A Wayland session observed mid-lockout with one buffered character. -/
def wlLockedOutInput : WaylandLocker :=
  { securePassword := NewSecurePassword.Append 97,
    lockoutManager := lmActiveAt100, countdownActive := false }

/-- Counterexample for C3: a Wayland authenticate() call during an active
lockout performs no authenticator call and clears the buffer, but triggers
no denial feedback at all (no shake, no countdown), contrary to the claim
that the call returns after triggering denial feedback. -/
theorem c3_counterexample :
    (wlLockedOutInput.lockoutManager.IsLockedOut 50).2 = true ∧
    (wlLockedOutInput.authenticate (fun _ => true) 50).2.authCalled = false ∧
    (wlLockedOutInput.authenticate (fun _ => true) 50).2.shake = false ∧
    (wlLockedOutInput.authenticate (fun _ => true) 50).2.countdown = false := by
  decide

/-- An X11 session observed mid-lockout. -/
def x11LockedOutInput : X11Locker :=
  { passwordBuf := "abc", isLocked := true, lockoutManager := lmActiveAt100 }

/-- An X11 session that has absorbed three failed submissions at instant 0
(so a 30s lockout is active until instant 30). -/
def x11FreshSession : X11Locker :=
  { passwordBuf := "a", isLocked := true, lockoutManager := NewLockoutManager false 0 }

def x11AfterThreeFails : X11Locker :=
  (((x11FreshSession.authenticate (fun _ => false) 0).1.authenticate (fun _ => false)
      0).1.authenticate (fun _ => false) 0).1

/-- C3 (amended): whenever authenticate() is called while the lockout is
active, the external authenticator is never invoked and the credential
buffer is cleared; the X11 locker additionally triggers the shake (denial
feedback) animation, while the Wayland locker returns without triggering any
feedback.  In particular, after 3 incorrect submissions in a row the session
is locked out with a positive remaining duration and a 4th submission during
the lockout performs no authenticator call. -/
theorem c3_lockout_never_calls_authenticator (authS : String → Bool)
    (authB : List Nat → Bool) (now : Int) (lx : X11Locker) (lw : WaylandLocker)
    (hx : (lx.lockoutManager.IsLockedOut now).2 = true)
    (hw : (lw.lockoutManager.IsLockedOut now).2 = true) :
    ((lx.authenticate authS now).2.authCalled = false ∧
     (lx.authenticate authS now).1.passwordBuf = "" ∧
     (lx.authenticate authS now).2.shake = true) ∧
    ((lw.authenticate authB now).2.authCalled = false ∧
     (lw.authenticate authB now).1.securePassword.len = 0 ∧
     (lw.authenticate authB now).2.shake = false ∧
     (lw.authenticate authB now).2.countdown = false) ∧
    ((x11AfterThreeFails.lockoutManager.IsLockedOut 10).2 = true ∧
     0 < (x11AfterThreeFails.lockoutManager.GetRemainingTime 10).2 ∧
     (x11AfterThreeFails.authenticate (fun _ => false) 10).2.authCalled = false) := by
  refine ⟨?_, ?_, by decide⟩
  · unfold X11Locker.authenticate
    simp [hx]
  · unfold WaylandLocker.authenticate
    simp [hw, SecurePassword.Clear]

/-- Witness for C3 (amended) at concrete locked-out sessions. -/
theorem c3_witness :
    (x11LockedOutInput.authenticate (fun _ => true) 50).2.authCalled = false ∧
    (wlLockedOutInput.authenticate (fun _ => true) 50).2.authCalled = false := by
  have h := c3_lockout_never_calls_authenticator (fun _ => true) (fun _ => true) 50
    x11LockedOutInput wlLockedOutInput (by decide) (by decide)
  exact ⟨h.1.1, h.2.1.1⟩

/-! ## MediaProcessSupervisor (MediaPlayer, internal/media.go)

The filesystem walk of scanMediaFiles is a parameter of Start (its result:
either a walk error or the list of matching files).  Spawned player
processes are modelled by the monitor index they were launched for (one
currentProcs entry per launched process).  The rand.Shuffle applied before
writing the playlist file is a permutation, so the membership and length
facts proved about the pre-shuffle list playlistForMonitor hold for the
written playlist as well. -/

inductive MediaType where
  | video
  | image
  | unknown
deriving Repr, DecidableEq

structure MediaFile where
  path : String
  fileType : MediaType
deriving Repr, DecidableEq

structure Monitor where
  X : Int
  Y : Int
  Width : Int
  Height : Int
deriving Repr, DecidableEq

/-- Models the inner loop of startPlaylistOnMonitor that decides whether a
media file is currently playing on a monitor other than monitorIdx. -/
def playingElsewhere (currentlyPlaying : List (Nat × String)) (monitorIdx : Nat)
    (m : MediaFile) : Bool :=
  currentlyPlaying.any (fun e => e.1 != monitorIdx && e.2 == m.path)

/-- Models the filter building availableMedia in startPlaylistOnMonitor. -/
def availableMedia (mediaFiles : List MediaFile) (currentlyPlaying : List (Nat × String))
    (monitorIdx : Nat) : List MediaFile :=
  mediaFiles.filter (fun m => !(playingElsewhere currentlyPlaying monitorIdx m))

/-- Models the alreadyAdded check of the backfill loop. -/
def alreadyAdded (acc : List MediaFile) (m : MediaFile) : Bool :=
  acc.any (fun a => a.path == m.path)

/-- Models the backfill loop of startPlaylistOnMonitor: walk the pool, add
every file not already present (by path), and stop as soon as minRequired
entries are reached. -/
def backfill (pool : List MediaFile) (acc : List MediaFile) (minRequired : Nat) :
    List MediaFile :=
  match pool with
  | [] => acc
  | m :: rest =>
    if alreadyAdded acc m then backfill rest acc minRequired
    else
      let acc1 := acc ++ [m]
      if minRequired ≤ acc1.length then acc1
      else backfill rest acc1 minRequired

/-- Models the playlist computed by startPlaylistOnMonitor before shuffling:
the de-duplicated available list, backfilled from the shared pool when it
fell below minRequired = len(mediaFiles)/2. -/
def playlistForMonitor (mediaFiles : List MediaFile)
    (currentlyPlaying : List (Nat × String)) (monitorIdx : Nat) : List MediaFile :=
  let avail := availableMedia mediaFiles currentlyPlaying monitorIdx
  let minRequired := mediaFiles.length / 2
  if avail.length < minRequired ∧ 0 < mediaFiles.length then
    backfill mediaFiles avail minRequired
  else avail

inductive MediaError where
  | scanFailed (msg : String)
  | noMediaFound
deriving Repr, DecidableEq

structure MediaPlayer where
  running : Bool
  mediaFiles : List MediaFile
  currentProcs : List Nat
  currentlyPlaying : List (Nat × String)
  monitors : List Monitor
deriving Repr, DecidableEq

/-- Models NewMediaPlayer: empty tables, not running. -/
def NewMediaPlayer : MediaPlayer :=
  { running := false, mediaFiles := [], currentProcs := [],
    currentlyPlaying := [], monitors := [] }

/-- Observable actions of one Start call: whether the directory scan ran and
how many player processes were launched. -/
structure StartTrace where
  scanned : Bool
  launched : Nat
deriving Repr, DecidableEq

/-- Map update for currentlyPlaying[monitorIdx] = v. -/
def setPlaying (l : List (Nat × String)) (k : Nat) (v : String) : List (Nat × String) :=
  if l.any (fun e => e.1 == k) then
    l.map (fun e => if e.1 == k then (k, v) else e)
  else l ++ [(k, v)]

/-- State effect of startPlaylistOnMonitor: record the spawned process and
initialise currentlyPlaying[monitorIdx] to the empty string. -/
def startPlaylistOnMonitor (mp : MediaPlayer) (monitorIdx : Nat) : MediaPlayer :=
  { mp with
      currentProcs := mp.currentProcs ++ [monitorIdx],
      currentlyPlaying := setPlaying mp.currentlyPlaying monitorIdx "" }

/-- The launch loop of Start over all monitors. -/
def launchAll (mp : MediaPlayer) : MediaPlayer :=
  (List.range mp.monitors.length).foldl startPlaylistOnMonitor mp

/-- Models MediaPlayer.Start: return nil immediately when already running;
otherwise set running := true, scan (the scan outcome is the parameter),
propagate a scan error, fail with noMediaFound on an empty scan, and
otherwise launch one player per monitor. -/
def MediaPlayer.Start (scan : Except String (List MediaFile)) (mp : MediaPlayer) :
    MediaPlayer × Option MediaError × StartTrace :=
  if mp.running then (mp, none, { scanned := false, launched := 0 })
  else
    let mp1 := { mp with running := true }
    match scan with
    | .error e =>
      ({ mp1 with mediaFiles := [] }, some (.scanFailed e),
       { scanned := true, launched := 0 })
    | .ok files =>
      let mp2 := { mp1 with mediaFiles := files }
      if files.length = 0 then
        (mp2, some .noMediaFound, { scanned := true, launched := 0 })
      else
        (launchAll mp2, none, { scanned := true, launched := mp2.monitors.length })

/-- Models MediaPlayer.Stop: no-op when not running; otherwise kill all
tracked processes, empty the process table and set running := false. -/
def MediaPlayer.Stop (mp : MediaPlayer) : MediaPlayer :=
  if mp.running then { mp with currentProcs := [], running := false } else mp

/-- C8: when the directory scan of Start yields no media files, Start
returns the no-media-found error, launches no player process and leaves the
process table empty. -/
theorem c8_empty_scan_no_media (mp : MediaPlayer) (h : mp.running = false)
    (hp : mp.currentProcs = []) :
    (MediaPlayer.Start (.ok []) mp).2.1 = some .noMediaFound ∧
    (MediaPlayer.Start (.ok []) mp).1.currentProcs = [] ∧
    (MediaPlayer.Start (.ok []) mp).2.2.launched = 0 := by
  unfold MediaPlayer.Start
  simp [h, hp]

/-- Witness for C8: a freshly created media player. -/
theorem c8_witness :
    (MediaPlayer.Start (.ok []) NewMediaPlayer).2.1 = some .noMediaFound ∧
    (MediaPlayer.Start (.ok []) NewMediaPlayer).1.currentProcs = [] ∧
    (MediaPlayer.Start (.ok []) NewMediaPlayer).2.2.launched = 0 :=
  c8_empty_scan_no_media NewMediaPlayer rfl rfl

theorem launchAll_running (l : List Nat) (mp : MediaPlayer) :
    (l.foldl startPlaylistOnMonitor mp).running = mp.running := by
  induction l generalizing mp with
  | nil => rfl
  | cons k rest ih => exact (ih (startPlaylistOnMonitor mp k)).trans rfl

/-- C9: Start sets running := true before scanning and never resets it on
its error paths, so a Start call on an already-running player returns nil
immediately with no scan and no launch; after any Start call the running
flag is true, and only Stop resets it to false. -/
theorem c9_running_flag_semantics :
    (∀ (scan : Except String (List MediaFile)) (mp : MediaPlayer), mp.running = true →
      MediaPlayer.Start scan mp = (mp, none, { scanned := false, launched := 0 })) ∧
    (∀ (scan : Except String (List MediaFile)) (mp : MediaPlayer),
      (MediaPlayer.Start scan mp).1.running = true) ∧
    (∀ mp : MediaPlayer, (MediaPlayer.Stop mp).running = false) := by
  refine ⟨?_, ?_, ?_⟩
  · intro scan mp h
    unfold MediaPlayer.Start
    simp [h]
  · intro scan mp
    unfold MediaPlayer.Start
    by_cases h : mp.running
    · simp [h]
    · simp only [h, if_false]
      cases scan with
      | error e => rfl
      | ok files =>
        by_cases hf : files.length = 0
        · simp [hf]
        · simp only [hf, if_false]
          exact launchAll_running _ _
  · intro mp
    unfold MediaPlayer.Stop
    by_cases h : mp.running
    · simp [h]
    · simp only [h, if_false]
      simpa using h

/-- Witness for C9: a second Start on an already-running player is the
identity with a nil result and an empty trace. -/
theorem c9_witness :
    MediaPlayer.Start (.ok []) ((MediaPlayer.Start (.ok [])
        NewMediaPlayer).1) =
      ((MediaPlayer.Start (.ok []) NewMediaPlayer).1, none,
       { scanned := false, launched := 0 }) :=
  c9_running_flag_semantics.1 (.ok []) ((MediaPlayer.Start (.ok []) NewMediaPlayer).1)
    (c9_running_flag_semantics.2.1 (.ok []) NewMediaPlayer)

theorem backfill_length (pool : List MediaFile) (acc : List MediaFile)
    (minRequired : Nat) (hnd : (pool.map MediaFile.path).Nodup)
    (h : minRequired ≤ acc.length +
      (pool.filter (fun m => !(alreadyAdded acc m))).length) :
    minRequired ≤ (backfill pool acc minRequired).length := by
  induction pool generalizing acc with
  | nil => simpa using h
  | cons m rest ih =>
    simp only [List.map_cons, List.nodup_cons] at hnd
    obtain ⟨hm, hnd2⟩ := hnd
    simp only [backfill]
    by_cases ha : alreadyAdded acc m
    · rw [if_pos ha]
      apply ih acc hnd2
      simpa [List.filter_cons, ha] using h
    · rw [if_neg ha]
      by_cases hm1 : minRequired ≤ (acc ++ [m]).length
      · rw [if_pos hm1]
        exact hm1
      · rw [if_neg hm1]
        apply ih (acc ++ [m]) hnd2
        have hfe : rest.filter (fun x => !(alreadyAdded (acc ++ [m]) x)) =
            rest.filter (fun x => !(alreadyAdded acc x)) := by
          apply List.filter_congr
          intro x hx
          have hxp : ¬ m.path = x.path := by
            intro hcontra
            exact hm (hcontra ▸ List.mem_map_of_mem MediaFile.path hx)
          simp [alreadyAdded, List.any_append, hxp]
        rw [hfe]
        have hlen : (acc ++ [m]).length = acc.length + 1 := by simp
        rw [List.filter_cons] at h
        simp only [ha, Bool.not_false, if_pos] at h
        simp only [List.length_cons] at h
        omega

theorem filter_alreadyAdded_avail (files : List MediaFile)
    (playing : List (Nat × String)) (idx : Nat)
    (hnd : (files.map MediaFile.path).Nodup) :
    files.filter (fun m => alreadyAdded (availableMedia files playing idx) m) =
      availableMedia files playing idx := by
  have hcg : ∀ m ∈ files, (alreadyAdded (availableMedia files playing idx) m) =
      !(playingElsewhere playing idx m) := by
    intro m hmem
    by_cases hq : playingElsewhere playing idx m
    · simp only [hq, Bool.not_true]
      rw [Bool.eq_false_iff]
      intro hcontra
      obtain ⟨a, hamem, habeq⟩ := List.any_eq_true.mp hcontra
      have haf := List.mem_filter.mp hamem
      have hap : a.path = m.path := by simpa using habeq
      have : a = m := List.inj_on_of_nodup_map hnd haf.1 hmem hap
      rw [this] at haf
      simp [hq] at haf
    · simp only [Bool.not_eq_true] at hq
      simp only [hq, Bool.not_false]
      apply List.any_eq_true.mpr
      refine ⟨m, ?_, by simp⟩
      exact List.mem_filter.mpr ⟨hmem, by simp [hq]⟩
  rw [List.filter_congr hcg]
  rfl

theorem avail_backfill_hyp (files : List MediaFile)
    (playing : List (Nat × String)) (idx : Nat)
    (hnd : (files.map MediaFile.path).Nodup) :
    files.length / 2 ≤ (availableMedia files playing idx).length +
      (files.filter (fun m => !(alreadyAdded (availableMedia files playing idx) m))).length := by
  have hpart := List.length_eq_length_filter_add
    (l := files) (fun m => alreadyAdded (availableMedia files playing idx) m)
  rw [filter_alreadyAdded_avail files playing idx hnd] at hpart
  have hds : files.length / 2 ≤ files.length := Nat.div_le_self _ _
  omega

/-- C7: for every non-empty media pool, the playlist computed for a monitor
excludes every path currently playing on another monitor whenever the
de-duplicated set already holds at least pool_size/2 entries; otherwise the
backfill loop brings the playlist back to at least pool_size/2 entries from
the shared pool; in particular, with a pool of 3 (distinct) files -- the
2-monitor scenario -- every monitor's playlist is non-empty whatever is
playing elsewhere. -/
theorem c7_playlist_dedup_and_backfill (mediaFiles : List MediaFile)
    (currentlyPlaying : List (Nat × String)) (monitorIdx : Nat)
    (hne : mediaFiles ≠ [])
    (hnd : (mediaFiles.map MediaFile.path).Nodup) :
    (mediaFiles.length / 2 ≤
        (availableMedia mediaFiles currentlyPlaying monitorIdx).length →
      playlistForMonitor mediaFiles currentlyPlaying monitorIdx =
        availableMedia mediaFiles currentlyPlaying monitorIdx ∧
      ∀ m ∈ playlistForMonitor mediaFiles currentlyPlaying monitorIdx,
        playingElsewhere currentlyPlaying monitorIdx m = false) ∧
    mediaFiles.length / 2 ≤
      (playlistForMonitor mediaFiles currentlyPlaying monitorIdx).length ∧
    (mediaFiles.length = 3 →
      playlistForMonitor mediaFiles currentlyPlaying monitorIdx ≠ []) := by
  have hpos : 0 < mediaFiles.length := List.length_pos.mpr hne
  by_cases hcond : (availableMedia mediaFiles currentlyPlaying monitorIdx).length <
      mediaFiles.length / 2 ∧ 0 < mediaFiles.length
  · have hpl : playlistForMonitor mediaFiles currentlyPlaying monitorIdx =
        backfill mediaFiles (availableMedia mediaFiles currentlyPlaying monitorIdx)
          (mediaFiles.length / 2) := by
      unfold playlistForMonitor
      rw [if_pos hcond]
    have hbound : mediaFiles.length / 2 ≤
        (playlistForMonitor mediaFiles currentlyPlaying monitorIdx).length := by
      rw [hpl]
      exact backfill_length mediaFiles _ _ hnd
        (avail_backfill_hyp mediaFiles currentlyPlaying monitorIdx hnd)
    refine ⟨fun habs => absurd habs (by omega), hbound, fun h3 => ?_⟩
    have : 0 < (playlistForMonitor mediaFiles currentlyPlaying monitorIdx).length := by
      omega
    exact List.ne_nil_of_length_pos this
  · have hge : mediaFiles.length / 2 ≤
        (availableMedia mediaFiles currentlyPlaying monitorIdx).length := by
      rcases not_and_or.mp hcond with hx | hx
      · omega
      · exact absurd hpos hx
    have hpl : playlistForMonitor mediaFiles currentlyPlaying monitorIdx =
        availableMedia mediaFiles currentlyPlaying monitorIdx := by
      unfold playlistForMonitor
      rw [if_neg hcond]
    refine ⟨fun _ => ⟨hpl, ?_⟩, by rw [hpl]; exact hge, fun h3 => ?_⟩
    · intro m hmem
      rw [hpl] at hmem
      have := List.of_mem_filter hmem
      simpa using this
    · rw [hpl]
      apply List.ne_nil_of_length_pos
      omega

/-- The 3-file pool of the C7 scenario. -/
def mfPool : List MediaFile :=
  [{ path := "a", fileType := .video }, { path := "b", fileType := .video },
   { path := "c", fileType := .image }]

/-- Witness for C7 at a concrete input exercising the backfill: all three
files are playing on other monitors, yet the computed playlist is
non-empty. -/
theorem c7_witness :
    mfPool.length / 2 ≤
      (playlistForMonitor mfPool [(0, "a"), (1, "b"), (2, "c")] 5).length :=
  (c7_playlist_dedup_and_backfill mfPool [(0, "a"), (1, "b"), (2, "c")] 5
    (by decide) (by decide)).2.1

end Fancylock
